import Mathlib

/-!
Shallow embedding of `src/lava/magma/core/decorator.py` (the `implements`,
`requires` and `tags` decorators for `AbstractProcessModel` subclasses),
together with theorems settling the specification claims about it.

Modelling choices:
* A Python class targeted by a decorator is `Cls`: its identity (`id`),
  whether it is a subclass of `AbstractProcessModel` (`isPM`), its own
  `__dict__` entries for the four metadata attributes (`own : OwnRec`),
  and the `__dict__` entries of its ancestors in method-resolution order
  (`ancestors : List OwnRec`, nearest first).
* Attribute lookup (`cls.attr`) walks `own :: ancestors` and takes the
  first class dict that defines the attribute; `setattr` writes only to
  `own`, exactly as in Python.
* Reference types (Process, SyncProtocol, Resource classes) are `TypeRef`
  values carrying the outcome of the `issubclass` conformance checks the
  decorators perform; Python class equality (`!=`) is `TypeRef` equality.
* Each decorator is split into its construction-time validation
  (`implements_check`, `requires_check`, `tags_build`), which in Python
  raises before any target exists, and its returned
  `decorate_process_model` closure (`decorate_implements`,
  `decorate_requires`, `decorate_tags`).  The closure mutates the class
  in place, so it is embedded as `Cls → Cls × Option Err`: the first
  component is the state of the class afterwards (including mutations
  performed before an exception was raised), the second the exception, if
  any.  `Err` records at which validation site the `AssertionError`
  arose, following the spec's taxonomy.
-/

/-- A reference type (a Python class object passed to a decorator), with the
results of the `issubclass` conformance checks the code performs on it. -/
structure TypeRef where
  id : Nat
  isProcess : Bool := false
  isProtocol : Bool := false
  isResource : Bool := false
deriving DecidableEq, Repr

/-- The failure sites of the decorators (all raised as `AssertionError` in
Python; the spec names them `InvalidArgument`, `InvalidTarget`,
`ConflictError`). -/
inductive Err where
  | invalidArgument : Err
  | invalidTarget : Err
  | conflict : Err
deriving DecidableEq, Repr

/-- One argument of `requires`: a bare class, or a Python list of classes. -/
inductive ReqArg where
  | single : TypeRef → ReqArg
  | group : List TypeRef → ReqArg
deriving DecidableEq, Repr

/-- One Python value appearing in the arguments of `tags`: a string, a list,
or some other non-string non-list value (modelled by a numeric token). -/
inductive TagElem where
  | str : String → TagElem
  | other : Nat → TagElem
  | list : List TagElem → TagElem

/-- The metadata entries a single class dict may hold.  `none` means the
attribute is absent from this class's own `__dict__`. -/
structure OwnRec where
  process : Option TypeRef := none
  protocol : Option TypeRef := none
  resources : Option (List ReqArg) := none
  tags : Option (List TagElem) := none

/-- A candidate target class: identity, conformance to
`AbstractProcessModel`, its own dict, and its ancestors' dicts in MRO
order (nearest first). -/
structure Cls where
  id : Nat
  isPM : Bool
  own : OwnRec := {}
  ancestors : List OwnRec := []

/-- First defined value along a lookup chain. -/
def firstSome {α : Type} : List (Option α) → Option α
  | [] => none
  | some a :: _ => some a
  | none :: rest => firstSome rest

/-- The MRO of `cls`: its own dict followed by its ancestors' dicts. -/
def Cls.records (cls : Cls) : List OwnRec := cls.own :: cls.ancestors

/-- Modelled from the spec: `AbstractProcessModel` (in
`lava/magma/core/model/model.py`, not under `src/`) declares the class-level
default `implements_process = None` ("null references" per the spec's
Lifecycle section), so attribute lookup that falls off the listed records
yields Python `None`, i.e. `none`. -/
def visibleProcess (cls : Cls) : Option TypeRef :=
  firstSome (cls.records.map (·.process))

/-- Modelled from the spec: likewise `implements_protocol = None` is the
base-class default. -/
def visibleProtocol (cls : Cls) : Option TypeRef :=
  firstSome (cls.records.map (·.protocol))

/-- Modelled from the spec: the base class declares the default
`required_resources = []` ("empty sequences" per the spec's Lifecycle
section). -/
def visibleResources (cls : Cls) : List ReqArg :=
  (firstSome (cls.records.map (·.resources))).getD []

/-- `hasattr(cls, 'tag_list')`: some class dict along the MRO defines it
(the base class does not, which is why the source guards with `hasattr`). -/
def hasTagList (cls : Cls) : Bool :=
  (firstSome (cls.records.map (·.tags))).isSome

/-- The visible `tag_list` of `cls` (empty when no record defines it; only
read by the source under the `hasattr` guard). -/
def visibleTags (cls : Cls) : List TagElem :=
  (firstSome (cls.records.map (·.tags))).getD []

/-- Construction-time validation of `implements(proc, protocol)`: each
given argument must pass its `issubclass` check. -/
def implements_check (proc protocol : Option TypeRef) : Option Err :=
  match proc with
  | some p =>
    if p.isProcess = false then some Err.invalidArgument
    else
      match protocol with
      | some q => if q.isProtocol = false then some Err.invalidArgument else none
      | none => none
  | none =>
    match protocol with
    | some q => if q.isProtocol = false then some Err.invalidArgument else none
    | none => none

/-- `cls.implements_process and proc and cls.implements_process != proc`
(a class object is always truthy; Python `None` is falsy). -/
def processConflict (cls : Cls) (proc : Option TypeRef) : Bool :=
  (visibleProcess cls).isSome && proc.isSome
    && decide (visibleProcess cls ≠ proc)

/-- `cls.implements_protocol and protocol and
cls.implements_protocol != protocol`. -/
def protocolConflict (cls : Cls) (protocol : Option TypeRef) : Bool :=
  (visibleProtocol cls).isSome && protocol.isSome
    && decide (visibleProtocol cls ≠ protocol)

/-- `setattr(cls, 'implements_process', p)`. -/
def setOwnProcess (cls : Cls) (p : Option TypeRef) : Cls :=
  { cls with own := { cls.own with process := p } }

/-- `setattr(cls, 'implements_protocol', p)`. -/
def setOwnProtocol (cls : Cls) (p : Option TypeRef) : Cls :=
  { cls with own := { cls.own with protocol := p } }

/-- The `decorate_process_model` closure returned by `implements`:
target-conformance check, process conflict check, conditional write of
`implements_process`, protocol conflict check, conditional write of
`implements_protocol`, then return of the class.  The returned `Cls` is the
state of the class when the call finishes, whether by returning or by
raising. -/
def decorate_implements (proc protocol : Option TypeRef) (cls : Cls) :
    Cls × Option Err :=
  if cls.isPM = false then (cls, some Err.invalidTarget)
  else if processConflict cls proc then (cls, some Err.conflict)
  else
    let cls1 := if proc.isSome then setOwnProcess cls proc else cls
    if protocolConflict cls1 protocol then (cls1, some Err.conflict)
    else
      let cls2 := if protocol.isSome then setOwnProtocol cls1 protocol else cls1
      (cls2, none)

example :
    decorate_implements (some ⟨0, true, false, false⟩) none ⟨0, true, {}, []⟩
      = (⟨0, true, { process := some ⟨0, true, false, false⟩ }, []⟩, none) := rfl

/-- The construction-time validation `requires` applies to one argument:
a bare argument must pass `issubclass(req, AbstractResource)`, a list
argument must have every element pass it (an empty list passes vacuously,
as in the source's `for` loop). -/
def req_check_one : ReqArg → Option Err
  | ReqArg.single r => if r.isResource = false then some Err.invalidArgument else none
  | ReqArg.group l =>
    if l.all (·.isResource) then none else some Err.invalidArgument

/-- The construction-time loop of `requires` over its arguments: the first
failing argument raises. -/
def requires_check : List ReqArg → Option Err
  | [] => none
  | a :: rest =>
    match req_check_one a with
    | some e => some e
    | none => requires_check rest

/-- An argument `requires_check` accepts. -/
def reqArgOk : ReqArg → Bool
  | ReqArg.single r => r.isResource
  | ReqArg.group l => l.all (·.isResource)

/-- The `decorate_process_model` closure returned by `requires`:
target-conformance check, then
`setattr(cls, 'required_resources', cls.required_resources.copy() + reqs)`. -/
def decorate_requires (reqs : List ReqArg) (cls : Cls) : Cls × Option Err :=
  if cls.isPM = false then (cls, some Err.invalidTarget)
  else
    ({ cls with own := { cls.own with
        resources := some (visibleResources cls ++ reqs) } }, none)

mutual

/-- The source's recursive `list_depth`:
`1 + max(map(list_depth, elem), default=0) if elem and isinstance(elem, list)
else 0` — zero for non-lists and for the empty list. -/
def list_depth : TagElem → Nat
  | TagElem.str _ => 0
  | TagElem.other _ => 0
  | TagElem.list [] => 0
  | TagElem.list (x :: xs) => 1 + depth_max (x :: xs)

/-- `max(map(list_depth, elem), default=0)`. -/
def depth_max : List TagElem → Nat
  | [] => 0
  | x :: xs => Nat.max (list_depth x) (depth_max xs)

end

/-- The construction-time loop of `tags` over its arguments: a string is
appended to the tag list; a list of depth exactly 1 is extended into it;
anything else raises. -/
def tags_build : List TagElem → Option (List TagElem)
  | [] => some []
  | TagElem.str s :: rest => (tags_build rest).map (fun t => TagElem.str s :: t)
  | TagElem.other _ :: _ => none
  | TagElem.list l :: rest =>
    if list_depth (TagElem.list l) = 1 then (tags_build rest).map (fun t => l ++ t)
    else none

/-- An argument `tags_build` accepts. -/
def tagArgOk : TagElem → Bool
  | TagElem.str _ => true
  | TagElem.other _ => false
  | TagElem.list l => decide (list_depth (TagElem.list l) = 1)

/-- An element that contributes depth 0 to an enclosing list: any non-list
value, or the empty list. -/
def isFlatElem : TagElem → Bool
  | TagElem.list l => l.isEmpty
  | _ => true

/-- The flattening `tags` performs on its (accepted) arguments: strings kept
as-is, list arguments expanded in place. -/
def tagFlatten : List TagElem → List TagElem
  | [] => []
  | TagElem.str s :: rest => TagElem.str s :: tagFlatten rest
  | TagElem.other n :: rest => TagElem.other n :: tagFlatten rest
  | TagElem.list l :: rest => l ++ tagFlatten rest

/-- The `decorate_process_model` closure returned by `tags`:
target-conformance check, then `setattr(cls, 'tag_list', ...)` — appending
to the visible (possibly inherited) `tag_list` when `hasattr` holds, else
installing the new list. -/
def decorate_tags (tag_list : List TagElem) (cls : Cls) : Cls × Option Err :=
  if cls.isPM = false then (cls, some Err.invalidTarget)
  else if hasTagList cls then
    ({ cls with own := { cls.own with
        tags := some (visibleTags cls ++ tag_list) } }, none)
  else
    ({ cls with own := { cls.own with tags := some tag_list } }, none)

/-- A freshly declared subclass of `parent`: empty own dict, `parent`'s own
dict prepended to its MRO. -/
def childOf (parent : Cls) (id : Nat) : Cls :=
  { id := id, isPM := parent.isPM, own := {},
    ancestors := parent.own :: parent.ancestors }

example : list_depth (TagElem.list []) = 0 := rfl
example : list_depth (TagElem.list [TagElem.list []]) = 1 := rfl
example : list_depth (TagElem.list [TagElem.str "a"]) = 1 := rfl
example : list_depth (TagElem.list [TagElem.list [TagElem.str "a"]]) = 2 := rfl
example : tags_build [TagElem.list [TagElem.list []]] = some [TagElem.list []] := rfl
example : tags_build [TagElem.list []] = none := rfl
example : tags_build [TagElem.list [TagElem.other 42]] = some [TagElem.other 42] := rfl
example : requires_check [ReqArg.group []] = none := rfl
example :
    tags_build [TagElem.str "cpu", TagElem.list [TagElem.str "fast", TagElem.str "precise"]]
      = some [TagElem.str "cpu", TagElem.str "fast", TagElem.str "precise"] := rfl

/-! ### Helper lemmas -/

theorem visibleTags_eq_nil_of_not_hasTagList (cls : Cls)
    (h : hasTagList cls = false) : visibleTags cls = [] := by
  unfold hasTagList at h
  unfold visibleTags
  cases hfs : firstSome (cls.records.map (·.tags)) with
  | none => rfl
  | some t => rw [hfs] at h; simp at h

theorem setOwnProcess_self (cls : Cls) (p : Option TypeRef)
    (h : cls.own.process = p) : setOwnProcess cls p = cls := by
  rw [← h]
  obtain ⟨i, b, ⟨pr, po, re, tg⟩, anc⟩ := cls
  rfl

theorem setOwnProtocol_self (cls : Cls) (p : Option TypeRef)
    (h : cls.own.protocol = p) : setOwnProtocol cls p = cls := by
  rw [← h]
  obtain ⟨i, b, ⟨pr, po, re, tg⟩, anc⟩ := cls
  rfl

theorem decorate_implements_run (proc protocol : Option TypeRef) (cls : Cls)
    (h1 : cls.isPM = true) (h2 : processConflict cls proc = false)
    (h3 : protocolConflict
      (if proc.isSome then setOwnProcess cls proc else cls) protocol = false) :
    decorate_implements proc protocol cls =
      (if protocol.isSome
        then setOwnProtocol (if proc.isSome then setOwnProcess cls proc else cls)
          protocol
        else (if proc.isSome then setOwnProcess cls proc else cls), none) := by
  simp [decorate_implements, h1, h2, h3]

theorem decorate_implements_ok_inv (proc protocol : Option TypeRef) (cls : Cls)
    (h : (decorate_implements proc protocol cls).2 = none) :
    cls.isPM = true ∧ processConflict cls proc = false ∧
    protocolConflict
      (if proc.isSome then setOwnProcess cls proc else cls) protocol = false := by
  cases hb : cls.isPM
  · simp [decorate_implements, hb] at h
  · cases hpc : processConflict cls proc
    · cases hqc : protocolConflict
        (if proc.isSome then setOwnProcess cls proc else cls) protocol
      · exact ⟨rfl, rfl, rfl⟩
      · simp [decorate_implements, hb, hpc, hqc] at h
    · simp [decorate_implements, hb, hpc] at h

theorem req_check_one_eq_none (a : ReqArg) :
    req_check_one a = none ↔ reqArgOk a = true := by
  cases a with
  | single r => cases hr : r.isResource <;> simp [req_check_one, reqArgOk, hr]
  | group l =>
    cases hl : l.all (·.isResource) <;> simp [req_check_one, reqArgOk, hl]

theorem depth_max_eq_zero (l : List TagElem) :
    depth_max l = 0 ↔ ∀ x ∈ l, list_depth x = 0 := by
  induction l with
  | nil => simp [depth_max]
  | cons x xs ih => simp [depth_max, Nat.max_eq_zero_iff, ih]

theorem list_depth_eq_zero (x : TagElem) :
    list_depth x = 0 ↔ isFlatElem x = true := by
  cases x with
  | str s => simp [list_depth, isFlatElem]
  | other n => simp [list_depth, isFlatElem]
  | list l =>
    cases l with
    | nil => simp [list_depth, isFlatElem]
    | cons y ys => simp [list_depth, isFlatElem]

theorem tagArgOk_list_iff (l : List TagElem) :
    tagArgOk (TagElem.list l) = true ↔ l ≠ [] ∧ l.all isFlatElem = true := by
  cases l with
  | nil => simp [tagArgOk, list_depth]
  | cons x xs =>
    have h1 : (1 + depth_max (x :: xs) = 1) ↔ depth_max (x :: xs) = 0 := by omega
    simp [tagArgOk, list_depth, h1, depth_max_eq_zero, List.all_eq_true,
      list_depth_eq_zero]

/-! ### Concrete fixtures for witnesses and counterexamples -/

/-- A concrete `AbstractProcess` subclass. -/
def procT : TypeRef := { id := 1, isProcess := true }

/-- A second, different `AbstractProcess` subclass. -/
def procT2 : TypeRef := { id := 2, isProcess := true }

/-- A concrete `AbstractSyncProtocol` subclass. -/
def protoT : TypeRef := { id := 3, isProtocol := true }

/-- A second, different `AbstractSyncProtocol` subclass. -/
def protoT2 : TypeRef := { id := 4, isProtocol := true }

/-- A concrete `AbstractResource` subclass. -/
def resT : TypeRef := { id := 5, isResource := true }

/-- A second concrete `AbstractResource` subclass. -/
def resT2 : TypeRef := { id := 6, isResource := true }

/-- A fully annotated `ProcessModel` class. -/
def clsAnnotated : Cls :=
  { id := 10, isPM := true,
    own := { process := some procT, protocol := some protoT,
             resources := some [ReqArg.single resT],
             tags := some [TagElem.str "cpu"] } }

/-- A `ProcessModel` class inheriting `implements_protocol = protoT` from a
parent, with nothing in its own dict. -/
def clsProtoParent : Cls :=
  { id := 11, isPM := true, own := {},
    ancestors := [{ protocol := some protoT }] }

/-- A bare `ProcessModel` class with no metadata anywhere. -/
def clsFresh : Cls := { id := 12, isPM := true }

/-- A `ProcessModel` class whose own dict has only `implements_process`
set — no protocol is bound anywhere on its MRO. -/
def clsProcOnly : Cls :=
  { id := 14, isPM := true, own := { process := some procT } }

/-- A class that is not a subclass of `AbstractProcessModel`. -/
def clsBad : Cls := { id := 13, isPM := false }

/-! ### Claim theorems -/

/-- C2: applying `requires` to a conforming target sets the target's own
`required_resources` to exactly the visible inherited list concatenated with
the new items, in that order, raising no error; the same concatenation law
holds for `tags` and `tag_list`. -/
theorem requires_tags_concatenation (reqs : List ReqArg) (tagl : List TagElem)
    (cls : Cls) (h : cls.isPM = true) :
    (decorate_requires reqs cls).2 = none
    ∧ (decorate_requires reqs cls).1.own.resources
        = some (visibleResources cls ++ reqs)
    ∧ (decorate_tags tagl cls).2 = none
    ∧ (decorate_tags tagl cls).1.own.tags
        = some (visibleTags cls ++ tagl) := by
  refine ⟨?_, ?_, ?_, ?_⟩
  · simp [decorate_requires, h]
  · simp [decorate_requires, h]
  · cases ht : hasTagList cls <;> simp [decorate_tags, h, ht]
  · cases ht : hasTagList cls
    · simp [decorate_tags, h, ht, visibleTags_eq_nil_of_not_hasTagList cls ht]
    · simp [decorate_tags, h, ht]

theorem requires_tags_concatenation_witness :
    clsAnnotated.isPM = true
    ∧ ((decorate_requires [ReqArg.single resT2] clsAnnotated).2 = none
       ∧ (decorate_requires [ReqArg.single resT2] clsAnnotated).1.own.resources
           = some (visibleResources clsAnnotated ++ [ReqArg.single resT2])
       ∧ (decorate_tags [TagElem.str "gpu"] clsAnnotated).2 = none
       ∧ (decorate_tags [TagElem.str "gpu"] clsAnnotated).1.own.tags
           = some (visibleTags clsAnnotated ++ [TagElem.str "gpu"])) :=
  ⟨rfl, requires_tags_concatenation [ReqArg.single resT2] [TagElem.str "gpu"]
    clsAnnotated rfl⟩

/-- C3: on every conforming target whose visible `implements_process` is a
non-null `A` — whatever the state of the protocol field — `implements` with
a different process `B` raises the conflict error while `implements` with
`A` again raises none; symmetrically, on every conforming target whose
visible `implements_protocol` is a non-null `A`, rebinding a different
protocol `B` raises the conflict error while rebinding `A` raises none. -/
theorem implements_conflict_detection (cls : Cls) (A B : TypeRef)
    (h : cls.isPM = true) :
    (visibleProcess cls = some A → B ≠ A →
        (decorate_implements (some B) none cls).2 = some Err.conflict
        ∧ (decorate_implements (some A) none cls).2 = none)
    ∧ (visibleProtocol cls = some A → B ≠ A →
        (decorate_implements none (some B) cls).2 = some Err.conflict
        ∧ (decorate_implements none (some A) cls).2 = none) := by
  constructor
  · intro hA hB
    have hpcB : processConflict cls (some B) = true := by
      simp [processConflict, hA, Ne.symm hB]
    have hpcA : processConflict cls (some A) = false := by
      simp [processConflict, hA]
    constructor
    · simp [decorate_implements, h, hpcB]
    · simp [decorate_implements, h, hpcA, protocolConflict]
  · intro hA hB
    have hqcB : protocolConflict cls (some B) = true := by
      simp [protocolConflict, hA, Ne.symm hB]
    have hqcA : protocolConflict cls (some A) = false := by
      simp [protocolConflict, hA]
    constructor
    · simp [decorate_implements, h, processConflict, hqcB]
    · simp [decorate_implements, h, processConflict, hqcA]

theorem implements_conflict_detection_witness :
    (clsProcOnly.isPM = true
      ∧ (decorate_implements (some procT2) none clsProcOnly).2
          = some Err.conflict
      ∧ (decorate_implements (some procT) none clsProcOnly).2 = none)
    ∧ (clsProtoParent.isPM = true
      ∧ (decorate_implements none (some protoT2) clsProtoParent).2
          = some Err.conflict
      ∧ (decorate_implements none (some protoT) clsProtoParent).2 = none) :=
  ⟨⟨rfl,
    ((implements_conflict_detection clsProcOnly procT procT2 rfl).1
      rfl (by decide)).1,
    ((implements_conflict_detection clsProcOnly procT procT2 rfl).1
      rfl (by decide)).2⟩,
   ⟨rfl,
    ((implements_conflict_detection clsProtoParent protoT protoT2 rfl).2
      rfl (by decide)).1,
    ((implements_conflict_detection clsProtoParent protoT protoT2 rfl).2
      rfl (by decide)).2⟩⟩

/-- C4: no binder application ever changes an ancestor's stored dict — in
particular, applying `requires` or `tags` to a freshly declared subclass
leaves the parent's own record (the head of the subclass's ancestor list)
exactly as it was; every binder writes onto the target's own record only. -/
theorem binders_never_mutate_ancestors (reqs : List ReqArg)
    (tagl : List TagElem) (proc protocol : Option TypeRef) (parent : Cls)
    (i : Nat) :
    (decorate_requires reqs (childOf parent i)).1.ancestors
        = parent.own :: parent.ancestors
    ∧ (decorate_tags tagl (childOf parent i)).1.ancestors
        = parent.own :: parent.ancestors
    ∧ ∀ cls : Cls,
        (decorate_requires reqs cls).1.ancestors = cls.ancestors
        ∧ (decorate_tags tagl cls).1.ancestors = cls.ancestors
        ∧ (decorate_implements proc protocol cls).1.ancestors
            = cls.ancestors := by
  have hreq : ∀ cls : Cls,
      (decorate_requires reqs cls).1.ancestors = cls.ancestors := by
    intro cls
    unfold decorate_requires
    split <;> rfl
  have htag : ∀ cls : Cls,
      (decorate_tags tagl cls).1.ancestors = cls.ancestors := by
    intro cls
    unfold decorate_tags
    split
    · rfl
    · split <;> rfl
  have himpl : ∀ cls : Cls,
      (decorate_implements proc protocol cls).1.ancestors = cls.ancestors := by
    intro cls
    cases hb : cls.isPM
    · simp [decorate_implements, hb]
    · cases hpc : processConflict cls proc
      · cases hqc : protocolConflict
          (if proc.isSome then setOwnProcess cls proc else cls) protocol
        · simp only [decorate_implements, hb, hpc, hqc]
          cases hps : proc.isSome <;> cases hqs : protocol.isSome <;>
            simp [hps, hqs, setOwnProcess, setOwnProtocol]
        · simp only [decorate_implements, hb, hpc, hqc]
          cases hps : proc.isSome <;> simp [hps, setOwnProcess]
      · simp [decorate_implements, hb, hpc]
  exact ⟨hreq (childOf parent i), htag (childOf parent i),
    fun cls => ⟨hreq cls, htag cls, himpl cls⟩⟩

/-- C5 counterexample: `requires` accepts an argument that is the empty
list — the inner element loop runs zero times, so, contrary to the claim,
an empty sequence item does not cause a construction failure. -/
theorem requires_accepts_empty_group :
    requires_check [ReqArg.group []] = none := rfl

/-- C5 (amended): `requires` construction succeeds exactly when every bare
argument is a resource subclass and every list argument — empty lists
included — contains only resource subclasses; any failure is the
construction-time `InvalidArgument`, raised before any target is touched. -/
theorem requires_check_characterization (args : List ReqArg) :
    (requires_check args = none ↔ ∀ a ∈ args, reqArgOk a = true)
    ∧ (requires_check args = none
        ∨ requires_check args = some Err.invalidArgument) := by
  induction args with
  | nil => simp [requires_check]
  | cons a rest ih =>
    obtain ⟨ih1, ih2⟩ := ih
    constructor
    · cases a with
      | single r =>
        cases hr : r.isResource <;>
          simp [requires_check, req_check_one, hr, reqArgOk, ih1]
      | group l =>
        cases hl : l.all (·.isResource) <;>
          simp [requires_check, req_check_one, hl, reqArgOk, ih1]
    · cases a with
      | single r =>
        cases hr : r.isResource <;>
          simp [requires_check, req_check_one, hr, ih2]
      | group l =>
        cases hl : l.all (·.isResource) <;>
          simp [requires_check, req_check_one, hl, ih2]

/-- C7: applying any of the three decorators to a class that is not an
`AbstractProcessModel` subclass raises the invalid-target error and writes
no metadata field — the class comes back exactly as it went in. -/
theorem nonconforming_target_rejected (cls : Cls) (h : cls.isPM = false)
    (proc protocol : Option TypeRef) (reqs : List ReqArg)
    (tagl : List TagElem) :
    decorate_implements proc protocol cls = (cls, some Err.invalidTarget)
    ∧ decorate_requires reqs cls = (cls, some Err.invalidTarget)
    ∧ decorate_tags tagl cls = (cls, some Err.invalidTarget) := by
  refine ⟨?_, ?_, ?_⟩ <;>
    simp [decorate_implements, decorate_requires, decorate_tags, h]

theorem nonconforming_target_rejected_witness :
    clsBad.isPM = false
    ∧ (decorate_implements (some procT) (some protoT) clsBad
        = (clsBad, some Err.invalidTarget)
       ∧ decorate_requires [ReqArg.single resT] clsBad
        = (clsBad, some Err.invalidTarget)
       ∧ decorate_tags [TagElem.str "cpu"] clsBad
        = (clsBad, some Err.invalidTarget)) :=
  ⟨rfl, nonconforming_target_rejected clsBad rfl (some procT) (some protoT)
    [ReqArg.single resT] [TagElem.str "cpu"]⟩

/-- C10: any `tags` construction in which some argument is the empty list
fails — the empty list has depth 0, not 1, so it is rejected as an item
rather than contributing zero tags. -/
theorem tags_rejects_empty_list_item (args : List TagElem)
    (h : TagElem.list [] ∈ args) : tags_build args = none := by
  induction args with
  | nil => cases h
  | cons a rest ih =>
    rcases List.mem_cons.mp h with heq | hmem
    · subst heq
      rfl
    · cases a with
      | str s => simp [tags_build, ih hmem]
      | other n => rfl
      | list ll =>
        by_cases hd : list_depth (TagElem.list ll) = 1 <;>
          simp [tags_build, hd, ih hmem]

theorem tags_rejects_empty_list_item_witness :
    TagElem.list [] ∈ [TagElem.str "a", TagElem.list []]
    ∧ tags_build [TagElem.str "a", TagElem.list []] = none :=
  ⟨List.mem_cons_of_mem _ (List.mem_cons_self _ _),
   tags_rejects_empty_list_item [TagElem.str "a", TagElem.list []]
     (List.mem_cons_of_mem _ (List.mem_cons_self _ _))⟩

/-- C1 counterexample: applying `implements(procT, protoT2)` to a class
that inherits `implements_protocol = protoT` raises the conflict for the
protocol field, yet `implements_process` has by then already been written
onto the class's own dict — mutation is not all-or-nothing. -/
theorem implements_protocol_conflict_writes_process :
    (decorate_implements (some procT) (some protoT2) clsProtoParent).2
        = some Err.conflict
    ∧ (decorate_implements (some procT) (some protoT2)
        clsProtoParent).1.own.process = some procT
    ∧ clsProtoParent.own.process = none :=
  ⟨rfl, rfl, rfl⟩

/-- C1 (amended): mutation is per-field and sequential, not all-or-nothing.
When `implements` raises the conflict error, the protocol field is never
written; if the conflict was for the process field (checked first) the
class is entirely unchanged, but if it was for the protocol field the
process field has already been set to the given process type. -/
theorem implements_mutation_per_field (proc protocol : Option TypeRef)
    (cls : Cls)
    (h : (decorate_implements proc protocol cls).2 = some Err.conflict) :
    (decorate_implements proc protocol cls).1.own.protocol = cls.own.protocol
    ∧ (processConflict cls proc = true →
        (decorate_implements proc protocol cls).1 = cls)
    ∧ (processConflict cls proc = false →
        (decorate_implements proc protocol cls).1
          = (if proc.isSome then setOwnProcess cls proc else cls)) := by
  cases hb : cls.isPM
  · simp [decorate_implements, hb] at h
  · cases hpc : processConflict cls proc
    · cases hqc : protocolConflict
        (if proc.isSome then setOwnProcess cls proc else cls) protocol
      · simp [decorate_implements, hb, hpc, hqc] at h
      · have hres : decorate_implements proc protocol cls
            = ((if proc.isSome then setOwnProcess cls proc else cls),
               some Err.conflict) := by
          simp [decorate_implements, hb, hpc, hqc]
        have h1 : (if proc.isSome then setOwnProcess cls proc
            else cls).own.protocol = cls.own.protocol := by
          cases hps : proc.isSome <;> simp [setOwnProcess]
        exact ⟨by rw [hres]; exact h1, by simp, fun _ => by rw [hres]⟩
    · have hres : decorate_implements proc protocol cls
          = (cls, some Err.conflict) := by
        simp [decorate_implements, hb, hpc]
      exact ⟨by rw [hres], fun _ => by rw [hres], by simp⟩

theorem implements_mutation_per_field_witness :
    (decorate_implements (some procT) (some protoT2) clsProtoParent).2
        = some Err.conflict
    ∧ ((decorate_implements (some procT) (some protoT2)
          clsProtoParent).1.own.protocol = clsProtoParent.own.protocol
       ∧ (processConflict clsProtoParent (some procT) = true →
            (decorate_implements (some procT) (some protoT2)
              clsProtoParent).1 = clsProtoParent)
       ∧ (processConflict clsProtoParent (some procT) = false →
            (decorate_implements (some procT) (some protoT2)
              clsProtoParent).1
              = (if (some procT : Option TypeRef).isSome
                  then setOwnProcess clsProtoParent (some procT)
                  else clsProtoParent))) :=
  ⟨rfl, implements_mutation_per_field (some procT) (some protoT2)
    clsProtoParent rfl⟩

/-- C6 counterexample: `tags` accepts the argument `[[]]` — a list
containing a further (empty) list — because the recursive depth count gives
it depth 1, and it also accepts a flat list containing a non-string, so,
contrary to the claim, neither nested-sequence rejection nor
elements-are-strings holds. -/
theorem tags_accepts_nested_empty_list :
    tags_build [TagElem.list [TagElem.list []]] = some [TagElem.list []]
    ∧ tags_build [TagElem.list [TagElem.other 42]]
        = some [TagElem.other 42] :=
  ⟨rfl, rfl⟩

/-- C6 (amended): `tags` construction succeeds exactly when every argument
is a string or a list of computed depth exactly 1, and then it flattens the
arguments in order (strings kept as-is, list items expanded in place); a
list has depth 1 exactly when it is non-empty and each of its elements is a
non-list value or an empty list — so empty-list elements are accepted
inside a list item, and elements are never checked to be strings. -/
theorem tags_build_characterization (args : List TagElem)
    (l : List TagElem) :
    tags_build args
        = (if args.all tagArgOk then some (tagFlatten args) else none)
    ∧ (tagArgOk (TagElem.list l) = true
        ↔ l ≠ [] ∧ l.all isFlatElem = true) := by
  constructor
  · induction args with
    | nil => rfl
    | cons a rest ih =>
      cases a with
      | str s =>
        cases hall : rest.all tagArgOk <;>
          simp [tags_build, tagFlatten, tagArgOk, hall, ih]
      | other n => simp [tags_build, tagArgOk]
      | list ll =>
        by_cases hd : list_depth (TagElem.list ll) = 1
        · cases hall : rest.all tagArgOk <;>
            simp [tags_build, tagFlatten, tagArgOk, hd, hall, ih]
        · simp [tags_build, tagArgOk, hd]
  · exact tagArgOk_list_iff l

/-- C8: a second application of `implements` with the same
`(process, protocol)` pair to the class produced by a successful first
application raises no error and leaves the class exactly as the first
application left it. -/
theorem implements_idempotent (proc protocol : Option TypeRef) (cls : Cls)
    (h : (decorate_implements proc protocol cls).2 = none) :
    decorate_implements proc protocol
        (decorate_implements proc protocol cls).1
      = ((decorate_implements proc protocol cls).1, none) := by
  obtain ⟨hb, hpc, hqc⟩ := decorate_implements_ok_inv proc protocol cls h
  have hrun := decorate_implements_run proc protocol cls hb hpc hqc
  rcases proc with _ | p <;> rcases protocol with _ | q
  · have hr : decorate_implements none none cls = (cls, none) := by
      simpa using hrun
    simp [hr]
  · have hr : decorate_implements none (some q) cls
        = (setOwnProtocol cls (some q), none) := by
      simpa using hrun
    simp only [hr]
    have hb1 : (setOwnProtocol cls (some q)).isPM = true := hb
    have hpc1 : processConflict (setOwnProtocol cls (some q)) none = false := by
      simp [processConflict]
    have hqc1 : protocolConflict
        (if (none : Option TypeRef).isSome
          then setOwnProcess (setOwnProtocol cls (some q)) none
          else setOwnProtocol cls (some q)) (some q) = false := by
      have hv : visibleProtocol (setOwnProtocol cls (some q)) = some q := rfl
      simp [protocolConflict, hv]
    have := decorate_implements_run none (some q)
      (setOwnProtocol cls (some q)) hb1 hpc1 hqc1
    simpa [setOwnProtocol_self (setOwnProtocol cls (some q)) (some q) rfl]
      using this
  · have hr : decorate_implements (some p) none cls
        = (setOwnProcess cls (some p), none) := by
      simpa using hrun
    simp only [hr]
    have hb1 : (setOwnProcess cls (some p)).isPM = true := hb
    have hpc1 : processConflict (setOwnProcess cls (some p)) (some p)
        = false := by
      have hv : visibleProcess (setOwnProcess cls (some p)) = some p := rfl
      simp [processConflict, hv]
    have hqc1 : protocolConflict
        (if (some p : Option TypeRef).isSome
          then setOwnProcess (setOwnProcess cls (some p)) (some p)
          else setOwnProcess cls (some p)) none = false := by
      simp [protocolConflict]
    have := decorate_implements_run (some p) none
      (setOwnProcess cls (some p)) hb1 hpc1 hqc1
    simpa [setOwnProcess_self (setOwnProcess cls (some p)) (some p) rfl]
      using this
  · have hr : decorate_implements (some p) (some q) cls
        = (setOwnProtocol (setOwnProcess cls (some p)) (some q), none) := by
      simpa using hrun
    simp only [hr]
    have hb1 : (setOwnProtocol (setOwnProcess cls (some p))
        (some q)).isPM = true := hb
    have hpc1 : processConflict
        (setOwnProtocol (setOwnProcess cls (some p)) (some q)) (some p)
        = false := by
      have hv : visibleProcess
          (setOwnProtocol (setOwnProcess cls (some p)) (some q))
          = some p := rfl
      simp [processConflict, hv]
    have hk : setOwnProcess
        (setOwnProtocol (setOwnProcess cls (some p)) (some q)) (some p)
        = setOwnProtocol (setOwnProcess cls (some p)) (some q) :=
      setOwnProcess_self _ (some p) rfl
    have hqc1 : protocolConflict
        (if (some p : Option TypeRef).isSome
          then setOwnProcess
            (setOwnProtocol (setOwnProcess cls (some p)) (some q)) (some p)
          else setOwnProtocol (setOwnProcess cls (some p)) (some q))
        (some q) = false := by
      have hv : visibleProtocol
          (setOwnProtocol (setOwnProcess cls (some p)) (some q))
          = some q := rfl
      simp [protocolConflict, hk, hv]
    have := decorate_implements_run (some p) (some q)
      (setOwnProtocol (setOwnProcess cls (some p)) (some q)) hb1 hpc1 hqc1
    simpa [hk, setOwnProtocol_self
      (setOwnProtocol (setOwnProcess cls (some p)) (some q)) (some q) rfl]
      using this

theorem implements_idempotent_witness :
    (decorate_implements (some procT) (some protoT) clsFresh).2 = none
    ∧ decorate_implements (some procT) (some protoT)
        (decorate_implements (some procT) (some protoT) clsFresh).1
      = ((decorate_implements (some procT) (some protoT) clsFresh).1,
         none) :=
  ⟨rfl, implements_idempotent (some procT) (some protoT) clsFresh rfl⟩

/-- C9: constructing `implements` with neither argument raises no
construction error; applying the resulting no-op decorator to a conforming
target raises no error and returns the class with nothing written; and
every successful application returns the very class object it was applied
to (its identity is preserved). -/
theorem implements_noop_and_identity (cls : Cls) (h : cls.isPM = true)
    (proc protocol : Option TypeRef) :
    implements_check none none = none
    ∧ decorate_implements none none cls = (cls, none)
    ∧ ((decorate_implements proc protocol cls).2 = none →
        (decorate_implements proc protocol cls).1.id = cls.id) := by
  refine ⟨rfl, ?_, ?_⟩
  · simp [decorate_implements, h, processConflict, protocolConflict]
  · intro hsucc
    obtain ⟨hb, hpc, hqc⟩ := decorate_implements_ok_inv proc protocol cls hsucc
    rw [decorate_implements_run proc protocol cls hb hpc hqc]
    cases hps : proc.isSome <;> cases hqs : protocol.isSome <;>
      simp [hps, hqs, setOwnProcess, setOwnProtocol]

theorem implements_noop_and_identity_witness :
    clsFresh.isPM = true
    ∧ (implements_check none none = none
       ∧ decorate_implements none none clsFresh = (clsFresh, none)
       ∧ ((decorate_implements (some procT) (some protoT) clsFresh).2
            = none →
          (decorate_implements (some procT) (some protoT) clsFresh).1.id
            = clsFresh.id)) :=
  ⟨rfl, implements_noop_and_identity clsFresh rfl (some procT)
    (some protoT)⟩
